import Mathlib

/-!
Verification of the `virmachine` simulation kernel against its
natural-language specification.

The Python sources are shallowly embedded as Lean definitions:

* `src/virmachine/models/interrupt.py` → `Interrupt`, `IntcState`,
  `intcInit`, `raiseInterrupt`, `registerInterrupt`, `intcUpdate`,
  `GenState`, `genUpdate` (the `PeriodicInterruptGenerator`);
* `src/virmachine/models/bus.py` → `BusMessage`, `BusDevice`, `BusState`,
  `routeMessage`, `busUpdate`;
* `src/virmachine/models/memory.py` → `MemState`, `memInit`, …;
* `src/virmachine/environment/runtime.py` → `Runtime`, `addModel`,
  `runtimeInit`, `rtStart`/`rtPause`/`rtResume`/`rtStop`,
  `runtimeUpdate`, `saveSnapshot`, `loadSnapshot`.

Modelling conventions:

* Python floats are modelled as rationals (`ℚ`); the quantities the claims
  touch stay exact in both arithmetics.
* Python dicts (insertion ordered, unique keys) are association lists; dict
  lookup / in-place value update are `lookupVec` / `updateVec` (first match,
  which coincides with dict behaviour on unique keys).
* A Python callable stored as a handler is modelled by an opaque numeric
  handler id (`Option ℕ`); invoking a handler is recorded as an event in the
  returned event list instead of running arbitrary code.
* `random.random()` is an oracle argument `r : ℚ` with `0 ≤ r < 1`; code that
  may draw several times takes an oracle stream `ρ : ℕ → ℚ`.
* A Python operation that can raise an uncaught exception (`KeyError`,
  `ValueError`) returns `Option`, `none` being the raised exception.
-/

/-- `InterruptType` enum of `interrupt.py`. -/
inductive InterruptType where
  | hardware | software | exception | timer | ioIntr
  deriving DecidableEq, Repr

/-- The `Interrupt` dataclass of `interrupt.py` (the wall-clock `timestamp`
field, which no claim observes, is omitted). -/
structure Interrupt where
  vector : ℤ
  interruptType : InterruptType
  priority : ℤ
  handler : Option ℕ
  enabled : Bool
  count : ℕ
  deriving DecidableEq, Repr

/-- Mutable state of an `InterruptController` (fields of `__init__` plus the
`num_vectors` entry of its `InterruptConfig`). -/
structure IntcState where
  numVectors : ℕ
  interrupts : List (ℤ × Interrupt)
  pendingInterrupts : List ℤ
  activeInterrupt : Option ℤ
  interruptEnabled : Bool
  totalInterrupts : ℕ
  initialized : Bool
  deriving DecidableEq, Repr

/-- Observable events produced while updating an interrupt controller or
driving it from a generator. -/
inductive IEvent where
  | dispatched (v : ℤ)
  | handlerInvoked (v : ℤ) (h : ℕ)
  | raiseCalled (v : ℤ)
  deriving DecidableEq, Repr

/-- Dict lookup `table[v]` on the vector table (first match; keys are unique
in every state the code builds). -/
def lookupVec (v : ℤ) : List (ℤ × Interrupt) → Option Interrupt
  | [] => none
  | (w, i) :: rest => if w = v then some i else lookupVec v rest

/-- In-place mutation of the dict entry at key `v` (first match). -/
def updateVec (v : ℤ) (f : Interrupt → Interrupt) :
    List (ℤ × Interrupt) → List (ℤ × Interrupt)
  | [] => []
  | (w, i) :: rest =>
      if w = v then (w, f i) :: rest else (w, i) :: updateVec v f rest

/-- A freshly constructed controller (`InterruptController.__init__`): empty
vector table, empty pending queue, globally enabled, not initialized. -/
def intcNew (numVectors : ℕ) : IntcState :=
  { numVectors := numVectors
    interrupts := []
    pendingInterrupts := []
    activeInterrupt := none
    interruptEnabled := true
    totalInterrupts := 0
    initialized := false }

/-- `InterruptController.initialize`: populates the vector table with
`num_vectors` disabled hardware entries of priority 0 and marks the model
initialized.  The Python `try` never fails here, so the result is `true`
together with the new state. -/
def intcInit (s : IntcState) : Bool × IntcState :=
  ⟨true,
    { s with
      interrupts :=
        (List.range s.numVectors).map (fun (i : ℕ) =>
          ((i : ℤ),
           { vector := (i : ℤ)
             interruptType := InterruptType.hardware
             priority := 0
             handler := none
             enabled := false
             count := 0 }))
      initialized := true }⟩

/-- `InterruptController.register_interrupt`; `none` models the
`ValueError` raised for a vector absent from the table. -/
def registerInterrupt (v : ℤ) (t : InterruptType) (priority : ℤ)
    (handler : Option ℕ) (s : IntcState) : Option IntcState :=
  match lookupVec v s.interrupts with
  | none => none
  | some _ =>
      some { s with
              interrupts := updateVec v (fun i =>
                { i with interruptType := t, priority := priority,
                         handler := handler, enabled := true }) s.interrupts }

/-- `InterruptController.raise_interrupt`; `none` models the `ValueError`
raised for a vector absent from the table. -/
def raiseInterrupt (v : ℤ) (s : IntcState) : Option IntcState :=
  match lookupVec v s.interrupts with
  | none => none
  | some i =>
      if ¬ i.enabled ∨ ¬ s.interruptEnabled then some s
      else if v ∈ s.pendingInterrupts then some s
      else some { s with pendingInterrupts := s.pendingInterrupts ++ [v] }

/-- `InterruptController._handle_interrupt`: sets `active`, bumps both
counters, invokes the handler if present, then clears `active`.  `none`
models the `KeyError` for a vector absent from the table. -/
def handleInterrupt (v : ℤ) (s : IntcState) : Option (IntcState × List IEvent) :=
  match lookupVec v s.interrupts with
  | none => none
  | some i =>
      some
        ({ s with
            activeInterrupt := none
            totalInterrupts := s.totalInterrupts + 1
            interrupts := updateVec v (fun j => { j with count := j.count + 1 })
              s.interrupts },
         IEvent.dispatched v ::
           (match i.handler with
            | some h => [IEvent.handlerInvoked v h]
            | none => []))

/-- Key extraction done by `list.sort(key=...)`: pairs each pending vector
with its priority, failing (`KeyError`) if a vector is missing from the
table. -/
def keyedPending (table : List (ℤ × Interrupt)) : List ℤ → Option (List (ℤ × ℤ))
  | [] => some []
  | v :: vs =>
      match lookupVec v table, keyedPending table vs with
      | some i, some rest => some ((v, i.priority) :: rest)
      | _, _ => none

/-- The order used by `pending_interrupts.sort(key=priority, reverse=True)`:
`a` may precede `b` iff `a`'s priority is at least `b`'s.  A stable sort by
this relation is exactly CPython's stable descending key sort. -/
def prioGE (a b : ℤ × ℤ) : Prop := b.2 ≤ a.2

instance : DecidableRel prioGE := fun a b => inferInstanceAs (Decidable (b.2 ≤ a.2))

instance : IsTotal (ℤ × ℤ) prioGE := ⟨fun a b => le_total b.2 a.2⟩

instance : IsTrans (ℤ × ℤ) prioGE := ⟨fun _ _ _ hab hbc => le_trans hbc hab⟩

/-- `InterruptController.update`: ignores `delta_time`; if globally enabled,
no interrupt is active and the pending queue is non-empty, stably sorts the
pending queue by priority descending, pops the head and handles it. -/
def intcUpdate (_deltaTime : ℚ) (s : IntcState) : Option (IntcState × List IEvent) :=
  if ¬ s.interruptEnabled then some (s, [])
  else if s.pendingInterrupts ≠ [] ∧ s.activeInterrupt = none then
    match keyedPending s.interrupts s.pendingInterrupts with
    | none => none
    | some pairs =>
        match List.insertionSort prioGE pairs with
        | [] => some (s, [])
        | (v, _) :: rest =>
            handleInterrupt v { s with pendingInterrupts := rest.map Prod.fst }
  else some (s, [])

/-- `InterruptController.get_state` as a structured record: the dict keys
`interrupt_enabled`, `total_interrupts`, `pending_count`,
`active_interrupt` and `interrupt_counts` (vectors with positive count, in
table order). -/
structure IntcObs where
  interruptEnabled : Bool
  totalInterrupts : ℕ
  pendingCount : ℕ
  activeInterrupt : Option ℤ
  interruptCounts : List (ℤ × ℕ)
  deriving DecidableEq, Repr

def intcGetState (s : IntcState) : IntcObs :=
  { interruptEnabled := s.interruptEnabled
    totalInterrupts := s.totalInterrupts
    pendingCount := s.pendingInterrupts.length
    activeInterrupt := s.activeInterrupt
    interruptCounts :=
      (s.interrupts.filter (fun p => 0 < p.2.count)).map (fun p => (p.1, p.2.count)) }

/-- `InterruptController.set_state`: restores only `interrupt_enabled` and
`total_interrupts`; the pending queue, active vector and per-vector counts
are not touched. -/
def intcSetState (o : IntcObs) (s : IntcState) : IntcState :=
  { s with interruptEnabled := o.interruptEnabled
           totalInterrupts := o.totalInterrupts }

/-- State of a `PeriodicInterruptGenerator` (its controller is passed
separately, since a Lean embedding has no mutable references). -/
structure GenState where
  vector : ℤ
  periodMs : ℚ
  maxCount : Option ℕ
  currentCount : ℕ
  elapsedTime : ℚ
  enabled : Bool
  deriving DecidableEq, Repr

/-- The fire-limit test `self.max_count is not None and self.current_count
>= self.max_count`. -/
def limitReached (g : GenState) : Bool :=
  match g.maxCount with
  | some mc => mc ≤ g.currentCount
  | none => false

/-- The `while self.elapsed_time >= self.period_ms` loop body of
`PeriodicInterruptGenerator.update`, with explicit fuel.  Each iteration
calls `raise_interrupt` (logged as `IEvent.raiseCalled`), bumps the fired
count, subtracts one period, and breaks the instant the fire limit is
reached.  Fuel exhaustion can only occur where the Python loop itself never
terminates (`period_ms ≤ 0` with no fire limit). -/
def genLoop : ℕ → GenState → IntcState → List IEvent →
    Option (GenState × IntcState × List IEvent)
  | 0, g, c, evs => some (g, c, evs)
  | Nat.succ fuel, g, c, evs =>
      if g.periodMs ≤ g.elapsedTime then
        match raiseInterrupt g.vector c with
        | none => none
        | some c' =>
            let g' := { g with currentCount := g.currentCount + 1,
                               elapsedTime := g.elapsedTime - g.periodMs }
            let evs' := evs ++ [IEvent.raiseCalled g.vector]
            if limitReached g' then some (g', c', evs')
            else genLoop fuel g' c' evs'
      else some (g, c, evs)

/-- Upper bound on the number of iterations of the while loop.  With a
fire limit the loop breaks within `max_count - current_count` iterations
no matter how much time elapsed; without one, each iteration consumes one
full period, so for a positive period `elapsed.num * period.den`
iterations (an integer upper bound of `elapsed / period`) suffice.  The
remaining case (`period_ms ≤ 0`, no fire limit) is where the Python loop
itself never terminates. -/
def genFuel (g : GenState) : ℕ :=
  match g.maxCount with
  | some mc => mc - g.currentCount + 1
  | none =>
      if 0 < g.periodMs then (g.elapsedTime.num * (g.periodMs.den : ℤ)).toNat + 1
      else 0

/-- `PeriodicInterruptGenerator.update(delta_time)`: no-op if disabled or
the fire limit is reached; otherwise accumulates `delta_time * 1000`
milliseconds and runs the firing loop. -/
def genUpdate (deltaTime : ℚ) (g : GenState) (c : IntcState) :
    Option (GenState × IntcState × List IEvent) :=
  if ¬ g.enabled then some (g, c, [])
  else if limitReached g then some (g, c, [])
  else
    let g1 := { g with elapsedTime := g.elapsedTime + deltaTime * 1000 }
    genLoop (genFuel g1) g1 c []

/-- The `BusMessage` dataclass of `bus.py` (the wall-clock `timestamp`
field, observed by no claim, is omitted; the payload is the byte list). -/
structure BusMessage where
  source : String
  destination : String
  data : List ℕ
  priority : ℤ
  messageId : Option ℕ
  deriving DecidableEq, Repr

/-- A `BusDevice`: rx/tx FIFO queues (front = head) and an optional
message handler, modelled as an opaque handler id. -/
structure BusDevice where
  rxQueue : List BusMessage
  txQueue : List BusMessage
  messageHandler : Option ℕ
  deriving DecidableEq, Repr

/-- Mutable state of a `BusModel`, including the `BusConfig` fields the
code reads (`bus_type` and `bandwidth_mbps` are echoed into `get_state`,
`error_rate` drives error injection). -/
structure BusState where
  busType : String
  bandwidthMbps : ℚ
  maxDevices : ℕ
  errorRate : ℚ
  devices : List (String × BusDevice)
  messageCount : ℕ
  errorCount : ℕ
  totalBytes : ℕ
  initialized : Bool
  deriving DecidableEq, Repr

/-- Observable events of bus routing: a registered handler being invoked
with a delivered message. -/
inductive BusEvent where
  | handlerInvoked (deviceId : String) (h : ℕ) (msg : BusMessage)
  deriving DecidableEq, Repr

/-- Dict lookup `devices[id]` (first match). -/
def lookupDev (id : String) : List (String × BusDevice) → Option BusDevice
  | [] => none
  | (d, dev) :: rest => if d = id then some dev else lookupDev id rest

/-- In-place mutation of the device dict entry at key `id` (first match). -/
def updateDev (id : String) (f : BusDevice → BusDevice) :
    List (String × BusDevice) → List (String × BusDevice)
  | [] => []
  | (d, dev) :: rest =>
      if d = id then (d, f dev) :: rest else (d, dev) :: updateDev id f rest

/-- One step of the broadcast loop of `_route_message`: enqueue into every
non-source device's rx queue and invoke its handler if registered. -/
def broadcastStep (msg : BusMessage)
    (acc : List (String × BusDevice) × List BusEvent) (p : String × BusDevice) :
    List (String × BusDevice) × List BusEvent :=
  if p.1 ≠ msg.source then
    (acc.1 ++ [(p.1, { p.2 with rxQueue := p.2.rxQueue ++ [msg] })],
     acc.2 ++
       (match p.2.messageHandler with
        | some h => [BusEvent.handlerInvoked p.1 h msg]
        | none => []))
  else (acc.1 ++ [p], acc.2)

/-- `BusModel._route_message(msg)` with the `random.random()` draw passed
in as the oracle `r`.  Counts the message and its bytes; with `r <
error_rate` counts an error and drops the message; otherwise routes by
destination (broadcast / point-to-point / silently discarded). -/
def routeMessage (r : ℚ) (msg : BusMessage) (b : BusState) :
    BusState × List BusEvent :=
  let b1 := { b with messageCount := b.messageCount + 1,
                     totalBytes := b.totalBytes + msg.data.length }
  if r < b1.errorRate then
    ({ b1 with errorCount := b1.errorCount + 1 }, [])
  else if msg.destination = "broadcast" then
    let res := b1.devices.foldl (broadcastStep msg) ([], [])
    ({ b1 with devices := res.1 }, res.2)
  else
    match lookupDev msg.destination b1.devices with
    | none => (b1, [])
    | some dev =>
        let enq := fun d => { d with rxQueue := d.rxQueue ++ [msg] }
        ({ b1 with devices := updateDev msg.destination enq b1.devices },
         match dev.messageHandler with
         | some h => [BusEvent.handlerInvoked msg.destination h msg]
         | none => [])

/-- Routes a list of messages in order, consuming one oracle draw per
message starting at index `k`. -/
def routeAll (ρ : ℕ → ℚ) (k : ℕ) (msgs : List BusMessage) (b : BusState)
    (evs : List BusEvent) : BusState × ℕ × List BusEvent :=
  match msgs with
  | [] => (b, k, evs)
  | m :: ms =>
      let res := routeMessage (ρ k) m b
      routeAll ρ (k + 1) ms res.1 (evs ++ res.2)

/-- The device loop of `BusModel.update`: for each attached device id in
attachment order, empty its tx queue and route the drained messages.
Routing never writes any tx queue (handlers are modelled as events), so
snapshotting and clearing the queue is exactly the Python while loop. -/
def drainDevices (ρ : ℕ → ℚ) (k : ℕ) (ids : List String) (b : BusState)
    (evs : List BusEvent) : BusState × ℕ × List BusEvent :=
  match ids with
  | [] => (b, k, evs)
  | id :: rest =>
      match lookupDev id b.devices with
      | none => drainDevices ρ k rest b evs
      | some dev =>
          let clearTx := updateDev id (fun d => { d with txQueue := [] }) b.devices
          let b1 := { b with devices := clearTx }
          let res := routeAll ρ k dev.txQueue b1 evs
          drainDevices ρ res.2.1 rest res.1 res.2.2

/-- `BusModel.update(delta_time)`: drains every attached device's tx queue
in attachment order; `delta_time` is ignored by the Python body. -/
def busUpdate (ρ : ℕ → ℚ) (_deltaTime : ℚ) (b : BusState) :
    BusState × List BusEvent :=
  let res := drainDevices ρ 0 (b.devices.map Prod.fst) b []
  (res.1, res.2.2)

/-- `BusModel.get_state` as a structured record (`error_rate` key of the
dict is the observed error ratio, not the configured rate). -/
structure BusObs where
  busType : String
  bandwidthMbps : ℚ
  deviceCount : ℕ
  messageCount : ℕ
  errorCount : ℕ
  totalBytes : ℕ
  errorRatio : ℚ
  deriving DecidableEq, Repr

def busGetState (b : BusState) : BusObs :=
  { busType := b.busType
    bandwidthMbps := b.bandwidthMbps
    deviceCount := b.devices.length
    messageCount := b.messageCount
    errorCount := b.errorCount
    totalBytes := b.totalBytes
    errorRatio :=
      if 0 < b.messageCount then (b.errorCount : ℚ) / (b.messageCount : ℚ) else 0 }

/-- `BusModel.set_state`: restores only the three counters. -/
def busSetState (o : BusObs) (b : BusState) : BusState :=
  { b with messageCount := o.messageCount
           errorCount := o.errorCount
           totalBytes := o.totalBytes }

/-- `BusModel.initialize`: resets the state blob and marks the model
initialized; the Python `try` never fails here. -/
def busInit (b : BusState) : Bool × BusState :=
  (true, { b with initialized := true })

/-- Mutable state of a `MemoryModel`.  `allocOk` is an environment oracle:
whether `bytearray(size_bytes)` succeeds (a `MemoryError` is the only way
`MemoryModel.initialize` can fail). -/
structure MemState where
  sizeMb : ℕ
  allocOk : Bool
  memory : List ℕ
  accessCount : ℕ
  initialized : Bool
  deriving DecidableEq, Repr

/-- `MemoryModel.initialize`: allocates `size_mb * 1024 * 1024` zero bytes
and marks the model initialized, or returns failure if allocation raises. -/
def memInit (s : MemState) : Bool × MemState :=
  if s.allocOk then
    (true, { s with memory := List.replicate (s.sizeMb * 1024 * 1024) 0,
                    initialized := true })
  else (false, s)

/-- `MemoryModel.get_state` as a structured record. -/
structure MemObs where
  sizeMb : ℕ
  sizeBytes : ℕ
  accessCount : ℕ
  usedBytes : ℕ
  utilization : ℚ
  deriving DecidableEq, Repr

def memGetState (s : MemState) : MemObs :=
  let used := (s.memory.filter (fun byte => byte ≠ 0)).length
  { sizeMb := s.sizeMb
    sizeBytes := s.memory.length
    accessCount := s.accessCount
    usedBytes := used
    utilization :=
      if 0 < s.memory.length then (used : ℚ) / (s.memory.length : ℚ) else 0 }

/-- `MemoryModel.set_state`: restores only `access_count`. -/
def memSetState (o : MemObs) (s : MemState) : MemState :=
  { s with accessCount := o.accessCount }

/-- The concrete model kinds registered with the runtime in the claims
(closed sum of the embedded `BaseModel` subclasses). -/
inductive Model where
  | bus (b : BusState)
  | intc (s : IntcState)
  | mem (m : MemState)
  deriving DecidableEq, Repr

/-- The corresponding `get_state` dictionaries. -/
inductive ObsState where
  | bus (o : BusObs)
  | intc (o : IntcObs)
  | mem (o : MemObs)
  deriving DecidableEq, Repr

/-- The abstract `BaseModel` interface of `models/__init__.py`, against
which `runtime.py` is written. -/
structure ModelAPI (M S : Type) where
  initModel : M → Bool × M
  update : ℚ → M → Option M
  getState : M → S
  setState : S → M → M
  isInitialized : M → Bool
  typeName : M → String

def modelInit : Model → Bool × Model
  | .bus b => let r := busInit b; (r.1, .bus r.2)
  | .intc s => let r := intcInit s; (r.1, .intc r.2)
  | .mem m => let r := memInit m; (r.1, .mem r.2)

/-- Model update; `MemoryModel.update` is `pass`.  The bus consumes the
oracle stream `ρ` for its error draws, one draw per routed message. -/
def modelUpdate (ρ : ℕ → ℚ) (dt : ℚ) : Model → Option Model
  | .bus b => some (.bus (busUpdate ρ dt b).1)
  | .intc s => (intcUpdate dt s).map (fun r => .intc r.1)
  | .mem m => some (.mem m)

def modelGetState : Model → ObsState
  | .bus b => .bus (busGetState b)
  | .intc s => .intc (intcGetState s)
  | .mem m => .mem (memGetState m)

/-- `set_state` dispatched on the snapshot's shape.  A snapshot of a
different model kind carries none of the dict keys the model's `set_state`
looks for, so every `if key in state` guard fails and the call is a
no-op. -/
def modelSetState : ObsState → Model → Model
  | .bus o, .bus b => .bus (busSetState o b)
  | .intc o, .intc s => .intc (intcSetState o s)
  | .mem o, .mem m => .mem (memSetState o m)
  | _, m => m

def modelIsInitialized : Model → Bool
  | .bus b => b.initialized
  | .intc s => s.initialized
  | .mem m => m.initialized

/-- `type(model).__name__`, stored in snapshots. -/
def modelTypeName : Model → String
  | .bus _ => "BusModel"
  | .intc _ => "InterruptController"
  | .mem _ => "MemoryModel"

/-- The `BaseModel` interface instantiated at the embedded models, with
oracle stream `ρ` supplying the bus error draws. -/
def vmAPI (ρ : ℕ → ℚ) : ModelAPI Model ObsState :=
  { initModel := modelInit
    update := modelUpdate ρ
    getState := modelGetState
    setState := modelSetState
    isInitialized := modelIsInitialized
    typeName := modelTypeName }

/-- The `RuntimeState` enum of `runtime.py`. -/
inductive RuntimeState where
  | created | initialized | running | paused | stopped | error
  deriving DecidableEq, Repr

/-- A `PrototypeRuntime`: its config fields (`max_models`,
`simulation_speed`, `name`), lifecycle state, insertion-ordered model
registry and counters.  `startTime` is the wall clock observed by
`start()`, passed in as an oracle. -/
structure Runtime (M : Type) where
  name : String
  maxModels : ℕ
  simulationSpeed : ℚ
  state : RuntimeState
  models : List (String × M)
  startTime : Option ℚ
  elapsedTime : ℚ
  simulationTime : ℚ
  updateCount : ℕ
  deriving DecidableEq, Repr

/-- The two `ValueError`s `add_model` can raise. -/
inductive AddModelError where
  | capacityExceeded | duplicateName
  deriving DecidableEq, Repr

/-- `PrototypeRuntime.add_model`: the capacity check precedes the
duplicate-name check; on success the model is appended (dict insertion
order). -/
def addModel {M : Type} (name : String) (model : M) (rt : Runtime M) :
    Except AddModelError (Runtime M) :=
  if rt.maxModels ≤ rt.models.length then .error .capacityExceeded
  else if name ∈ rt.models.map Prod.fst then .error .duplicateName
  else .ok { rt with models := rt.models ++ [(name, model)] }

/-- The model loop of `PrototypeRuntime.initialize`: initializes models in
insertion order, stopping at the first one whose `initialize` returns
false; models before the failure keep their initialized state (no
rollback) and models after it are untouched. -/
def initModels {M S : Type} (api : ModelAPI M S) :
    List (String × M) → Bool × List (String × M)
  | [] => (true, [])
  | (n, m) :: rest =>
      let r := api.initModel m
      if r.1 then
        let res := initModels api rest
        (res.1, (n, r.2) :: res.2)
      else (false, (n, r.2) :: rest)

/-- `PrototypeRuntime.initialize`: on success moves to `Initialized`; on a
model failure returns false with the lifecycle state unchanged (the
`Error` state is entered only when a model raises an exception, which the
embedded models never do — they catch their own). -/
def runtimeInit {M S : Type} (api : ModelAPI M S) (rt : Runtime M) :
    Bool × Runtime M :=
  let res := initModels api rt.models
  if res.1 then (true, { rt with models := res.2, state := .initialized })
  else (false, { rt with models := res.2 })

/-- `PrototypeRuntime.start`: allowed from `Initialized` or `Paused`;
records the wall clock `now`. -/
def rtStart {M : Type} (now : ℚ) (rt : Runtime M) : Bool × Runtime M :=
  if rt.state = .initialized ∨ rt.state = .paused then
    (true, { rt with startTime := some now, state := .running })
  else (false, rt)

/-- `PrototypeRuntime.pause`: allowed only from `Running`. -/
def rtPause {M : Type} (rt : Runtime M) : Bool × Runtime M :=
  if rt.state = .running then (true, { rt with state := .paused })
  else (false, rt)

/-- `PrototypeRuntime.resume`: allowed only from `Paused`. -/
def rtResume {M : Type} (rt : Runtime M) : Bool × Runtime M :=
  if rt.state = .paused then (true, { rt with state := .running })
  else (false, rt)

/-- `PrototypeRuntime.stop`: allowed from `Running` or `Paused`. -/
def rtStop {M : Type} (rt : Runtime M) : Bool × Runtime M :=
  if rt.state = .running ∨ rt.state = .paused then
    (true, { rt with state := .stopped })
  else (false, rt)

/-- The model loop of `PrototypeRuntime.update`: updates every initialized
model in insertion order; an exception escaping a model's `update`
propagates (`none`). -/
def updateModels {M S : Type} (api : ModelAPI M S) (dt : ℚ) :
    List (String × M) → Option (List (String × M))
  | [] => some []
  | (n, m) :: rest =>
      if api.isInitialized m then
        match api.update dt m with
        | none => none
        | some m' => (updateModels api dt rest).map (fun r => (n, m') :: r)
      else (updateModels api dt rest).map (fun r => (n, m) :: r)

/-- `PrototypeRuntime.update(delta_time)`: no-op unless `Running`; applies
the simulation-speed multiplier, updates all initialized models, then
accumulates `elapsed_time`, `simulation_time` and `update_count`. -/
def runtimeUpdate {M S : Type} (api : ModelAPI M S) (dt : ℚ) (rt : Runtime M) :
    Option (Runtime M) :=
  if rt.state ≠ .running then some rt
  else
    let adjusted := dt * rt.simulationSpeed
    match updateModels api adjusted rt.models with
    | none => none
    | some ms =>
        some { rt with models := ms
                       elapsedTime := rt.elapsedTime + dt
                       simulationTime := rt.simulationTime + adjusted
                       updateCount := rt.updateCount + 1 }

/-- The snapshot dictionary of `save_snapshot`: a config subset, the
lifecycle state string, the two time scalars, and per model its type name
and `get_state` blob. -/
structure Snapshot (S : Type) where
  cfgName : String
  cfgSimulationSpeed : ℚ
  stateTag : RuntimeState
  elapsedTime : ℚ
  simulationTime : ℚ
  models : List (String × String × S)
  deriving DecidableEq, Repr

def saveSnapshot {M S : Type} (api : ModelAPI M S) (rt : Runtime M) :
    Snapshot S :=
  { cfgName := rt.name
    cfgSimulationSpeed := rt.simulationSpeed
    stateTag := rt.state
    elapsedTime := rt.elapsedTime
    simulationTime := rt.simulationTime
    models := rt.models.map (fun p => (p.1, api.typeName p.2, api.getState p.2)) }

/-- `if name in self.models: self.models[name].set_state(state)` — updates
the (unique) entry with that name, skipping absent names. -/
def setStateByName {M S : Type} (api : ModelAPI M S) (name : String) (s : S) :
    List (String × M) → List (String × M)
  | [] => []
  | (n, m) :: rest =>
      if n = name then (n, api.setState s m) :: rest
      else (n, m) :: setStateByName api name s rest

/-- `PrototypeRuntime.load_snapshot`: restores the two time scalars, then
applies `set_state` per snapshot model name to the matching runtime model;
names absent from the runtime are skipped.  It never fails over the
embedded models (the Python `except` path needs `set_state` to raise) and
does not restore the lifecycle state or `update_count`. -/
def loadSnapshot {M S : Type} (api : ModelAPI M S) (snap : Snapshot S)
    (rt : Runtime M) : Bool × Runtime M :=
  (true,
   { rt with
      elapsedTime := snap.elapsedTime
      simulationTime := snap.simulationTime
      models := snap.models.foldl (fun ms e => setStateByName api e.1 e.2.2 ms)
        rt.models })

/-! ### Generic association-list lemmas for the dict embeddings -/

theorem lookupVec_updateVec_self (v : ℤ) (f : Interrupt → Interrupt) :
    ∀ l : List (ℤ × Interrupt),
      lookupVec v (updateVec v f l) = (lookupVec v l).map f
  | [] => rfl
  | (w, i) :: rest => by
      by_cases h : w = v
      · simp [lookupVec, updateVec, h]
      · simp [lookupVec, updateVec, h, lookupVec_updateVec_self v f rest]

theorem lookupVec_updateVec_ne (v w : ℤ) (f : Interrupt → Interrupt)
    (hw : w ≠ v) :
    ∀ l : List (ℤ × Interrupt),
      lookupVec w (updateVec v f l) = lookupVec w l
  | [] => rfl
  | (u, i) :: rest => by
      by_cases h : u = v
      · simp [lookupVec, updateVec, h, Ne.symm hw]
      · by_cases h2 : u = w
        · simp [lookupVec, updateVec, h, h2, hw]
        · simp [lookupVec, updateVec, h, h2, lookupVec_updateVec_ne v w f hw rest]

theorem lookupDev_mem (id : String) :
    ∀ l : List (String × BusDevice), ∀ dev, lookupDev id l = some dev →
      (id, dev) ∈ l
  | [], _, h => by simp [lookupDev] at h
  | (d, x) :: rest, dev, h => by
      by_cases hd : d = id
      · subst hd
        simp [lookupDev] at h
        simp [h]
      · simp [lookupDev, hd] at h
        exact List.mem_cons_of_mem _ (lookupDev_mem id rest dev h)

theorem lookupDev_updateDev_self (id : String) (f : BusDevice → BusDevice) :
    ∀ l : List (String × BusDevice),
      lookupDev id (updateDev id f l) = (lookupDev id l).map f
  | [] => rfl
  | (d, x) :: rest => by
      by_cases h : d = id
      · simp [lookupDev, updateDev, h]
      · simp [lookupDev, updateDev, h, lookupDev_updateDev_self id f rest]

theorem lookupDev_updateDev_ne (nm nm' : String) (f : BusDevice → BusDevice)
    (h : nm' ≠ nm) :
    ∀ l : List (String × BusDevice),
      lookupDev nm' (updateDev nm f l) = lookupDev nm' l
  | [] => rfl
  | (d, x) :: rest => by
      by_cases hd : d = nm
      · simp [lookupDev, updateDev, hd, Ne.symm h]
      · by_cases h2 : d = nm'
        · simp [lookupDev, updateDev, hd, h2, h]
        · simp [lookupDev, updateDev, hd, h2,
            lookupDev_updateDev_ne nm nm' f h rest]

/-! ### Shared concrete fixtures -/

/-- A constant oracle stream (any value in `[0,1)` works wherever it is
consumed in the concrete scenarios). -/
def rhoHalf : ℕ → ℚ := fun _ => 1 / 2

/-- A memory model whose `bytearray` allocation fails (`MemoryError`), the
one way a bundled model's `initialize` returns `False`. -/
def memFailFx : MemState :=
  { sizeMb := 1024, allocOk := false, memory := [], accessCount := 0,
    initialized := false }

/-- An empty ethernet bus with a given error rate. -/
def busFx (errorRate : ℚ) : BusState :=
  { busType := "ethernet", bandwidthMbps := 100, maxDevices := 16,
    errorRate := errorRate, devices := [], messageCount := 0, errorCount := 0,
    totalBytes := 0, initialized := false }

/-- A runtime in a given lifecycle state holding the given models. -/
def rtWith (st : RuntimeState) (ms : List (String × Model)) : Runtime Model :=
  { name := "rt", maxModels := 100, simulationSpeed := 1, state := st,
    models := ms, startTime := none, elapsedTime := 0, simulationTime := 0,
    updateCount := 0 }

def rtPausedFx : Runtime Model := rtWith RuntimeState.paused []

def rtInitFx : Runtime Model := rtWith RuntimeState.initialized []

/-! ### C3 — lifecycle transition table -/

/-- C3 counterexample: the claim says `start()` succeeds only from
`Initialized`, but `PrototypeRuntime.start` also accepts `Paused`
(`runtime.py` line 87): on a paused runtime `start()` returns true instead
of the claimed false. -/
theorem start_from_paused_succeeds :
    rtPausedFx.state ≠ RuntimeState.initialized ∧
      (rtStart 0 rtPausedFx).1 = true ∧
      (rtStart 0 rtPausedFx).2.state = RuntimeState.running := by
  refine ⟨by decide, rfl, rfl⟩

/-- C3 (amended): `start()` succeeds exactly from `Initialized` or
`Paused`; `pause()` exactly from `Running`; `resume()` exactly from
`Paused`; `stop()` exactly from `Running` or `Paused`; every other call
returns false and leaves the runtime unchanged. -/
theorem runtime_lifecycle_transitions {M : Type} (now : ℚ) (rt : Runtime M) :
    ((rtStart now rt).1 = true ↔
        rt.state = RuntimeState.initialized ∨ rt.state = RuntimeState.paused) ∧
    ((rt.state = RuntimeState.initialized ∨ rt.state = RuntimeState.paused) →
        rtStart now rt =
          (true, { rt with startTime := some now, state := RuntimeState.running })) ∧
    (¬ (rt.state = RuntimeState.initialized ∨ rt.state = RuntimeState.paused) →
        rtStart now rt = (false, rt)) ∧
    ((rtPause rt).1 = true ↔ rt.state = RuntimeState.running) ∧
    (rt.state = RuntimeState.running →
        rtPause rt = (true, { rt with state := RuntimeState.paused })) ∧
    (rt.state ≠ RuntimeState.running → rtPause rt = (false, rt)) ∧
    ((rtResume rt).1 = true ↔ rt.state = RuntimeState.paused) ∧
    (rt.state = RuntimeState.paused →
        rtResume rt = (true, { rt with state := RuntimeState.running })) ∧
    (rt.state ≠ RuntimeState.paused → rtResume rt = (false, rt)) ∧
    ((rtStop rt).1 = true ↔
        rt.state = RuntimeState.running ∨ rt.state = RuntimeState.paused) ∧
    ((rt.state = RuntimeState.running ∨ rt.state = RuntimeState.paused) →
        rtStop rt = (true, { rt with state := RuntimeState.stopped })) ∧
    (¬ (rt.state = RuntimeState.running ∨ rt.state = RuntimeState.paused) →
        rtStop rt = (false, rt)) := by
  unfold rtStart rtPause rtResume rtStop
  refine ⟨?_, ?_, ?_, ?_, ?_, ?_, ?_, ?_, ?_, ?_, ?_, ?_⟩ <;>
    · split_ifs with h <;> simp_all

/-- C3 witness: the amended transition table applied to a concrete
initialized runtime. -/
theorem runtime_lifecycle_transitions_witness :
    rtStart 7 rtInitFx =
      (true, { rtInitFx with startTime := some 7, state := RuntimeState.running }) :=
  (runtime_lifecycle_transitions 7 rtInitFx).2.1 (Or.inl rfl)

/-! ### C8 — error_rate = 1.0 drops every message -/

/-- C8: with `error_rate = 1.0` every routed message is counted
(`message_count`, byte total) and counted as an error, and is delivered
nowhere — devices untouched, no handler invoked. -/
theorem route_with_error_rate_one (b : BusState) (msg : BusMessage) (r : ℚ)
    (he : b.errorRate = 1) (_hr0 : 0 ≤ r) (hr1 : r < 1) :
    routeMessage r msg b =
      ({ b with messageCount := b.messageCount + 1
                totalBytes := b.totalBytes + msg.data.length
                errorCount := b.errorCount + 1 }, []) := by
  unfold routeMessage
  simp only [he]
  rw [if_pos hr1]

/-- C8 witness: a concrete message on a concrete `error_rate = 1` bus with
draw `r = 1/2`. -/
theorem route_with_error_rate_one_witness :
    routeMessage (1/2)
        { source := "a", destination := "b", data := [1, 2, 3], priority := 0,
          messageId := none } (busFx 1) =
      ({ busFx 1 with messageCount := 1, totalBytes := 3, errorCount := 1 }, []) := by
  have h := route_with_error_rate_one (busFx 1)
    { source := "a", destination := "b", data := [1, 2, 3], priority := 0,
      messageId := none } (1/2) rfl (by norm_num) (by norm_num)
  simpa [busFx] using h

/-! ### C9 — add_model error order -/

def rtFullFx : Runtime Model :=
  { name := "rt", maxModels := 1, simulationSpeed := 1,
    state := RuntimeState.created, models := [("a", Model.mem memFailFx)],
    startTime := none, elapsedTime := 0, simulationTime := 0, updateCount := 0 }

/-- C9 counterexample: the claim says a duplicate name always fails with
`DuplicateName`, but `add_model` checks capacity first (`runtime.py` lines
68–72): re-adding name "a" to a full runtime raises the capacity error
instead. -/
theorem duplicate_at_capacity_is_capacity_error :
    "a" ∈ rtFullFx.models.map Prod.fst ∧
      addModel "a" (Model.mem memFailFx) rtFullFx =
        Except.error AddModelError.capacityExceeded := by
  exact ⟨by decide, rfl⟩

/-- C9 (amended): `add_model` fails with `CapacityExceeded` whenever the
model count has reached `max_models` (checked first, even for a duplicate
name); with spare capacity a registered name fails with `DuplicateName`;
otherwise the model is appended, preserving insertion order.  Failures
return the error without touching the registry. -/
theorem add_model_error_order {M : Type} (name : String) (m : M)
    (rt : Runtime M) :
    (rt.maxModels ≤ rt.models.length →
        addModel name m rt = Except.error AddModelError.capacityExceeded) ∧
    (rt.models.length < rt.maxModels → name ∈ rt.models.map Prod.fst →
        addModel name m rt = Except.error AddModelError.duplicateName) ∧
    (rt.models.length < rt.maxModels → name ∉ rt.models.map Prod.fst →
        addModel name m rt =
          Except.ok { rt with models := rt.models ++ [(name, m)] }) := by
  unfold addModel
  refine ⟨fun h => ?_, fun h hmem => ?_, fun h hmem => ?_⟩
  · rw [if_pos h]
  · rw [if_neg (by omega), if_pos hmem]
  · rw [if_neg (by omega), if_neg hmem]

/-- C9 witness: a successful insertion into a concrete runtime with spare
capacity. -/
theorem add_model_error_order_witness :
    addModel "b" (Model.bus (busFx 0)) rtInitFx =
      Except.ok { rtInitFx with models := [("b", Model.bus (busFx 0))] } := by
  have h := (add_model_error_order "b" (Model.bus (busFx 0)) rtInitFx).2.2
    (by decide) (by decide)
  simpa [rtInitFx, rtWith] using h

/-! ### C10 — vector validity is table membership -/

theorem lookupVec_of_neg (v : ℤ) (hv : v < 0) (g : ℕ → Interrupt) :
    ∀ l : List ℕ, lookupVec v (l.map (fun (i : ℕ) => ((i : ℤ), g i))) = none
  | [] => rfl
  | i :: rest => by
      have hne : (i : ℤ) ≠ v := by omega
      simp [lookupVec, hne, lookupVec_of_neg v hv g rest]

/-- C10: before `initialize` the vector table is empty, so
`register_interrupt` and `raise_interrupt` raise `ValueError` for every
vector — including ones that become valid after initialization; and since
validity is table membership, negative vectors are rejected even after
`initialize`. -/
theorem uninitialized_controller_rejects_all_vectors (n : ℕ) (v : ℤ)
    (t : InterruptType) (p : ℤ) (h : Option ℕ) :
    registerInterrupt v t p h (intcNew n) = none ∧
    raiseInterrupt v (intcNew n) = none ∧
    (v < 0 →
      registerInterrupt v t p h (intcInit (intcNew n)).2 = none ∧
      raiseInterrupt v (intcInit (intcNew n)).2 = none) := by
  refine ⟨rfl, rfl, fun hv => ?_⟩
  have hnone : lookupVec v ((intcInit (intcNew n)).2).interrupts = none := by
    unfold intcInit intcNew
    exact lookupVec_of_neg v hv _ (List.range n)
  constructor
  · unfold registerInterrupt
    rw [hnone]
  · unfold raiseInterrupt
    rw [hnone]

/-- C10 witness: vector `3` is rejected by the fresh controller but in the
table after `initialize`; vector `-1` is rejected even after
`initialize`. -/
theorem uninitialized_controller_rejects_witness :
    raiseInterrupt 3 (intcNew 4) = none ∧
    registerInterrupt (-1) InterruptType.hardware 0 none
        (intcInit (intcNew 4)).2 = none ∧
    (lookupVec 3 ((intcInit (intcNew 4)).2).interrupts).isSome = true := by
  refine ⟨(uninitialized_controller_rejects_all_vectors 4 3
      InterruptType.hardware 0 none).2.1,
    ((uninitialized_controller_rejects_all_vectors 4 (-1)
      InterruptType.hardware 0 none).2.2 (by norm_num)).1, by decide⟩

/-! ### C4 — initialize failure behaviour -/

theorem initModels_all_ok {M S : Type} (api : ModelAPI M S) :
    ∀ ms : List (String × M), (∀ p ∈ ms, (api.initModel p.2).1 = true) →
      initModels api ms = (true, ms.map (fun p => (p.1, (api.initModel p.2).2)))
  | [], _ => rfl
  | (n, m) :: rest, h => by
      have hm : (api.initModel m).1 = true := h (n, m) (List.mem_cons_self _ _)
      have ih := initModels_all_ok api rest
        (fun p hp => h p (List.mem_cons_of_mem _ hp))
      simp [initModels, hm, ih]

theorem initModels_first_failure {M S : Type} (api : ModelAPI M S)
    (name : String) (m : M) (post : List (String × M))
    (hm : (api.initModel m).1 = false) :
    ∀ pre : List (String × M), (∀ p ∈ pre, (api.initModel p.2).1 = true) →
      initModels api (pre ++ (name, m) :: post) =
        (false, pre.map (fun p => (p.1, (api.initModel p.2).2)) ++
          (name, (api.initModel m).2) :: post)
  | [], _ => by simp [initModels, hm]
  | (n', m') :: pre, h => by
      have hm' : (api.initModel m').1 = true := h (n', m') (List.mem_cons_self _ _)
      have ih := initModels_first_failure api name m post hm pre
        (fun p hp => h p (List.mem_cons_of_mem _ hp))
      simp [initModels, hm', ih]

/-- C4 (amended): `Runtime.initialize` initializes registered models in
insertion order; if every model succeeds it returns true and moves to
`Initialized`; at the first model whose `initialize` returns false it
returns false with the lifecycle state unchanged (the `Error` state would
require the model to raise, which the bundled models never do), keeping
the already-initialized models (no rollback) and leaving the rest
untouched. -/
theorem runtime_init_failure_no_rollback {M S : Type} (api : ModelAPI M S)
    (rt : Runtime M) :
    ((∀ p ∈ rt.models, (api.initModel p.2).1 = true) →
        runtimeInit api rt =
          (true, { rt with
                    models := rt.models.map (fun p => (p.1, (api.initModel p.2).2))
                    state := RuntimeState.initialized })) ∧
    (∀ (pre : List (String × M)) (name : String) (m : M)
        (post : List (String × M)),
      rt.models = pre ++ (name, m) :: post →
      (∀ p ∈ pre, (api.initModel p.2).1 = true) →
      (api.initModel m).1 = false →
        runtimeInit api rt =
          (false, { rt with
                     models := pre.map (fun p => (p.1, (api.initModel p.2).2)) ++
                       (name, (api.initModel m).2) :: post })) := by
  constructor
  · intro h
    unfold runtimeInit
    rw [initModels_all_ok api rt.models h]
    simp
  · intro pre name m post hsplit hpre hfail
    unfold runtimeInit
    rw [hsplit, initModels_first_failure api name m post hfail pre hpre]
    simp

def rtC4Fx : Runtime Model := rtWith RuntimeState.created [("m0", Model.mem memFailFx)]

/-- C4 counterexample: a runtime whose single model fails `initialize`
returns false but stays in `Created` — it does not transition to `Error`
as the claim states (`runtime.py` lines 54–57 return without touching
`self.state`; only the exception path sets `Error`). -/
theorem init_failure_keeps_state :
    (runtimeInit (vmAPI rhoHalf) rtC4Fx).1 = false ∧
    (runtimeInit (vmAPI rhoHalf) rtC4Fx).2.state = RuntimeState.created ∧
    RuntimeState.created ≠ RuntimeState.error :=
  ⟨rfl, rfl, by decide⟩

def rtC4wFx : Runtime Model :=
  rtWith RuntimeState.created
    [("b0", Model.bus (busFx 0)), ("m1", Model.mem memFailFx),
     ("i0", Model.intc (intcNew 4))]

/-- C4 witness: the amended behaviour at a concrete three-model runtime
whose middle model fails — the bus before it stays initialized, the
controller after it stays untouched, the lifecycle state stays `Created`. -/
theorem runtime_init_failure_no_rollback_witness :
    runtimeInit (vmAPI rhoHalf) rtC4wFx =
      (false, { rtC4wFx with
                 models := [("b0", Model.bus (busFx 0))].map
                     (fun p => (p.1, ((vmAPI rhoHalf).initModel p.2).2)) ++
                   [("m1", ((vmAPI rhoHalf).initModel (Model.mem memFailFx)).2),
                    ("i0", Model.intc (intcNew 4))] }) :=
  (runtime_init_failure_no_rollback (vmAPI rhoHalf) rtC4wFx).2
    [("b0", Model.bus (busFx 0))] "m1" (Model.mem memFailFx)
    [("i0", Model.intc (intcNew 4))] rfl (by decide) rfl

/-! ### C2 — routing with error injection disabled -/

/-- The per-device delivery of the broadcast branch of `_route_message`. -/
def bcastDeliver (msg : BusMessage) (p : String × BusDevice) : String × BusDevice :=
  if p.1 ≠ msg.source then (p.1, { p.2 with rxQueue := p.2.rxQueue ++ [msg] })
  else p

/-- The handler invocations of the broadcast branch, in device order. -/
def bcastEvents (msg : BusMessage) (l : List (String × BusDevice)) : List BusEvent :=
  l.flatMap (fun p =>
    if p.1 ≠ msg.source then
      match p.2.messageHandler with
      | some h => [BusEvent.handlerInvoked p.1 h msg]
      | none => []
    else [])

theorem broadcast_foldl (msg : BusMessage) :
    ∀ (l : List (String × BusDevice)) (acc1 : List (String × BusDevice))
      (acc2 : List BusEvent),
      l.foldl (broadcastStep msg) (acc1, acc2) =
        (acc1 ++ l.map (bcastDeliver msg), acc2 ++ bcastEvents msg l)
  | [], acc1, acc2 => by simp [bcastEvents]
  | p :: rest, acc1, acc2 => by
      by_cases hs : p.1 = msg.source
      · simp [List.foldl_cons, broadcastStep, hs, bcastDeliver, bcastEvents,
          broadcast_foldl msg rest]
      · cases hh : p.2.messageHandler with
        | none =>
            simp [List.foldl_cons, broadcastStep, hs, hh, bcastDeliver, bcastEvents,
              broadcast_foldl msg rest]
        | some h =>
            simp [List.foldl_cons, broadcastStep, hs, hh, bcastDeliver, bcastEvents,
              broadcast_foldl msg rest]

/-- C2: with `error_rate = 0` and any draw `0 ≤ r` ( `random.random()` is
never negative), `route_message` counts the message and its bytes and
never the error counter; a broadcast is enqueued into the rx queue of
every attached device except the source (handlers invoked in device
order) and never into the source's own rx queue; a destination matching
an attached device id is delivered to that device only; an unmatched
destination is delivered to no device. -/
theorem bus_route_no_error (b : BusState) (msg : BusMessage) (r : ℚ)
    (he : b.errorRate = 0) (hr : 0 ≤ r) :
    (routeMessage r msg b).1.messageCount = b.messageCount + 1 ∧
    (routeMessage r msg b).1.totalBytes = b.totalBytes + msg.data.length ∧
    (routeMessage r msg b).1.errorCount = b.errorCount ∧
    (msg.destination = "broadcast" →
      (routeMessage r msg b).1.devices = b.devices.map (bcastDeliver msg) ∧
      (routeMessage r msg b).2 = bcastEvents msg b.devices) ∧
    (msg.destination ≠ "broadcast" →
      ∀ dev, lookupDev msg.destination b.devices = some dev →
        lookupDev msg.destination (routeMessage r msg b).1.devices =
          some { dev with rxQueue := dev.rxQueue ++ [msg] } ∧
        (∀ nm', nm' ≠ msg.destination →
          lookupDev nm' (routeMessage r msg b).1.devices =
            lookupDev nm' b.devices) ∧
        (routeMessage r msg b).2 =
          (match dev.messageHandler with
           | some h => [BusEvent.handlerInvoked msg.destination h msg]
           | none => [])) ∧
    (msg.destination ≠ "broadcast" →
      lookupDev msg.destination b.devices = none →
        (routeMessage r msg b).1.devices = b.devices ∧
        (routeMessage r msg b).2 = []) := by
  have hnotlt : ¬ r < b.errorRate := by rw [he]; exact not_lt.mpr hr
  by_cases hb : msg.destination = "broadcast"
  · refine ⟨?_, ?_, ?_, fun _ => ?_, fun hnb => absurd hb hnb, fun hnb => absurd hb hnb⟩ <;>
      simp [routeMessage, hnotlt, hb, broadcast_foldl]
  · refine ⟨?_, ?_, ?_, fun hb2 => absurd hb2 hb, fun _ => ?_, fun _ => ?_⟩
    · cases hld : lookupDev msg.destination b.devices <;>
        simp [routeMessage, hnotlt, hb, hld]
    · cases hld : lookupDev msg.destination b.devices <;>
        simp [routeMessage, hnotlt, hb, hld]
    · cases hld : lookupDev msg.destination b.devices <;>
        simp [routeMessage, hnotlt, hb, hld]
    · intro dev hld
      refine ⟨?_, fun nm' hnm => ?_, ?_⟩
      · simp [routeMessage, hnotlt, hb, hld, lookupDev_updateDev_self, hld]
      · simp [routeMessage, hnotlt, hb, hld, lookupDev_updateDev_ne _ _ _ hnm]
      · simp [routeMessage, hnotlt, hb, hld]
    · intro hld
      constructor <;> simp [routeMessage, hnotlt, hb, hld]

def devFx (h : Option ℕ) : BusDevice :=
  { rxQueue := [], txQueue := [], messageHandler := h }

def busABCFx : BusState :=
  { busFx 0 with
      devices := [("a", devFx none), ("b", devFx (some 1)), ("c", devFx none)] }

def msgBcastFx : BusMessage :=
  { source := "a", destination := "broadcast", data := [7], priority := 0,
    messageId := none }

/-- C2 witness: the spec's `{A,B,C}` broadcast example — the message from
`a` lands in `b`'s and `c`'s rx queues and not in `a`'s own. -/
theorem bus_route_no_error_witness :
    (routeMessage (1/2) msgBcastFx busABCFx).1.devices =
      busABCFx.devices.map (bcastDeliver msgBcastFx) ∧
    (routeMessage (1/2) msgBcastFx busABCFx).2 =
      bcastEvents msgBcastFx busABCFx.devices :=
  ((bus_route_no_error busABCFx msgBcastFx (1/2) rfl (by norm_num)).2.2.2.1) rfl

/-! ### C5 — Δt = 0 ticks -/

/-- A model is quiescent when its `update` has nothing to do even at
`Δt = 0`: an initialized bus has no queued tx messages, an initialized
interrupt controller is globally disabled, has an empty pending queue or an
interrupt already active.  (Uninitialized models are skipped by
`Runtime.update` and need no condition.) -/
def quiescentModel : Model → Prop
  | .bus b => b.initialized = true → ∀ p ∈ b.devices, p.2.txQueue = []
  | .intc s => s.initialized = true →
      s.interruptEnabled = false ∨ s.pendingInterrupts = [] ∨
        s.activeInterrupt ≠ none
  | .mem _ => True

theorem updateDev_clear_of_clear (nm : String) :
    ∀ l : List (String × BusDevice), (∀ p ∈ l, p.2.txQueue = []) →
      updateDev nm (fun d => { d with txQueue := [] }) l = l
  | [], _ => rfl
  | (d, dev) :: rest, h => by
      have hd : dev.txQueue = [] := h (d, dev) (List.mem_cons_self _ _)
      by_cases hdn : d = nm
      · simp only [updateDev, if_pos hdn]
        congr 1
        cases dev
        simp_all
      · simp only [updateDev, if_neg hdn]
        rw [updateDev_clear_of_clear nm rest
          (fun p hp => h p (List.mem_cons_of_mem _ hp))]

theorem drainDevices_empty (ρ : ℕ → ℚ) (b : BusState)
    (hb : ∀ p ∈ b.devices, p.2.txQueue = []) :
    ∀ (ids : List String) (k : ℕ) (evs : List BusEvent),
      drainDevices ρ k ids b evs = (b, k, evs)
  | [], _, _ => rfl
  | nm :: rest, k, evs => by
      cases hld : lookupDev nm b.devices with
      | none => simp [drainDevices, hld, drainDevices_empty ρ b hb rest k evs]
      | some dev =>
          have hdev : dev.txQueue = [] := hb (nm, dev) (lookupDev_mem nm b.devices dev hld)
          simp only [drainDevices, hld, updateDev_clear_of_clear nm b.devices hb,
            hdev, routeAll]
          exact drainDevices_empty ρ b hb rest k evs

theorem busUpdate_quiescent (ρ : ℕ → ℚ) (dt : ℚ) (b : BusState)
    (hb : ∀ p ∈ b.devices, p.2.txQueue = []) :
    busUpdate ρ dt b = (b, []) := by
  unfold busUpdate
  rw [drainDevices_empty ρ b hb (b.devices.map Prod.fst) 0 []]

theorem intcUpdate_quiescent (dt : ℚ) (s : IntcState)
    (hs : s.interruptEnabled = false ∨ s.pendingInterrupts = [] ∨
      s.activeInterrupt ≠ none) :
    intcUpdate dt s = some (s, []) := by
  rcases hs with h | h | h
  · simp [intcUpdate, h]
  · simp [intcUpdate, h]
  · by_cases he : s.interruptEnabled
    · simp [intcUpdate, he, h]
    · simp [intcUpdate, he]

theorem modelUpdate_quiescent (ρ : ℕ → ℚ) (dt : ℚ) (m : Model)
    (hm : quiescentModel m) (hi : modelIsInitialized m = true) :
    modelUpdate ρ dt m = some m := by
  cases m with
  | bus b =>
      show some (Model.bus (busUpdate ρ dt b).1) = some (Model.bus b)
      rw [busUpdate_quiescent ρ dt b (hm hi)]
  | intc s =>
      show (intcUpdate dt s).map (fun r => Model.intc r.1) = some (Model.intc s)
      rw [intcUpdate_quiescent dt s (hm hi)]
      rfl
  | mem mm => rfl

theorem updateModels_quiescent (ρ : ℕ → ℚ) (dt : ℚ) :
    ∀ ms : List (String × Model), (∀ p ∈ ms, quiescentModel p.2) →
      updateModels (vmAPI ρ) dt ms = some ms
  | [], _ => rfl
  | (n, m) :: rest, h => by
      have hm := h (n, m) (List.mem_cons_self _ _)
      have ih := updateModels_quiescent ρ dt rest
        (fun p hp => h p (List.mem_cons_of_mem _ hp))
      have hinit : (vmAPI ρ).isInitialized m = modelIsInitialized m := rfl
      by_cases hi : modelIsInitialized m
      · have hu : (vmAPI ρ).update dt m = some m :=
          modelUpdate_quiescent ρ dt m hm hi
        simp only [updateModels, hinit, hi, if_true, hu, ih, Option.map_some']
      · simp only [updateModels, hinit, hi, Bool.false_eq_true, if_false, ih,
          Option.map_some']

theorem runtimeUpdate_zero_quiescent (ρ : ℕ → ℚ) (rt : Runtime Model)
    (hrun : rt.state = RuntimeState.running)
    (hq : ∀ p ∈ rt.models, quiescentModel p.2) :
    runtimeUpdate (vmAPI ρ) 0 rt =
      some { rt with updateCount := rt.updateCount + 1 } := by
  unfold runtimeUpdate
  rw [if_neg (by simp [hrun])]
  simp only [updateModels_quiescent ρ (0 * rt.simulationSpeed) rt.models hq]
  simp

/-- `N` successive `Runtime.update(0.0)` calls, call `k` drawing its bus
randomness from the stream `ρs k`. -/
def iterUpdateZero (ρs : ℕ → ℕ → ℚ) : ℕ → Runtime Model → Option (Runtime Model)
  | 0, rt => some rt
  | Nat.succ k, rt =>
      (runtimeUpdate (vmAPI (ρs k)) 0 rt).bind (iterUpdateZero ρs k)

/-- C5 (amended): on a Running runtime whose initialized models are
quiescent (interrupt controllers disabled/idle, buses with no queued tx
messages), any number `N` of `update(0.0)` calls changes nothing but
`update_count`, which grows by exactly `N` — in particular every model's
`get_state()`, `elapsed_time` and `simulation_time` are unchanged.
(Without quiescence the claim fails: an interrupt controller dispatches a
pending interrupt even at `Δt = 0`, see the counterexample.) -/
theorem zero_delta_updates_counted_only (ρs : ℕ → ℕ → ℚ) (N : ℕ)
    (rt : Runtime Model) (hrun : rt.state = RuntimeState.running)
    (hq : ∀ p ∈ rt.models, quiescentModel p.2) :
    iterUpdateZero ρs N rt = some { rt with updateCount := rt.updateCount + N } := by
  induction N generalizing rt with
  | zero => simp [iterUpdateZero]
  | succ k ih =>
      have h1 := runtimeUpdate_zero_quiescent (ρs k) rt hrun hq
      have h2 := ih { rt with updateCount := rt.updateCount + 1 } hrun hq
      show (runtimeUpdate (vmAPI (ρs k)) 0 rt).bind (iterUpdateZero ρs k) = _
      rw [h1]
      show iterUpdateZero ρs k { rt with updateCount := rt.updateCount + 1 } = _
      rw [h2]
      have h3 : rt.updateCount + 1 + k = rt.updateCount + (k + 1) := by omega
      simp [h3]

/-- A registered, enabled interrupt with priority 1 on vector 0. -/
def intrFx : Interrupt :=
  { vector := 0, interruptType := InterruptType.hardware, priority := 1,
    handler := none, enabled := true, count := 0 }

/-- An initialized one-vector controller with vector 0 pending. -/
def intcPendFx : IntcState :=
  { numVectors := 1, interrupts := [(0, intrFx)], pendingInterrupts := [0],
    activeInterrupt := none, interruptEnabled := true, totalInterrupts := 0,
    initialized := true }

def rtC5Fx : Runtime Model :=
  rtWith RuntimeState.running [("ic", Model.intc intcPendFx)]

/-- C5 counterexample: a Running runtime holding an initialized interrupt
controller with one pending interrupt.  A single `update(0.0)` changes the
controller's `get_state()` (`interrupt.py` lines 97–106 dispatch one
pending interrupt regardless of `delta_time`), contradicting the claim
that model states are unchanged for every Running runtime. -/
theorem zero_delta_update_changes_model_state :
    (runtimeUpdate (vmAPI rhoHalf) 0 rtC5Fx).map
        (fun rt => rt.models.map (fun p => modelGetState p.2)) ≠
      some (rtC5Fx.models.map (fun p => modelGetState p.2)) := by
  decide

/-- C5 witness: three zero-Δt ticks of a quiescent running runtime bump
only `update_count`. -/
theorem zero_delta_updates_counted_only_witness :
    iterUpdateZero (fun _ => rhoHalf) 3
        (rtWith RuntimeState.running [("b0", Model.bus (busFx 0))]) =
      some { rtWith RuntimeState.running [("b0", Model.bus (busFx 0))] with
              updateCount := 3 } :=
  zero_delta_updates_counted_only (fun _ => rhoHalf) 3 _ rfl
    (by intro p hp; simp [rtWith] at hp; simp [hp, quiescentModel, busFx])

/-! ### C6 — snapshot round trip -/

theorem modelSetState_getState (m : Model) :
    modelSetState (modelGetState m) m = m := by
  cases m <;> rfl

theorem setStateByName_skip {M S : Type} (api : ModelAPI M S) (nm : String)
    (s : S) :
    ∀ ms : List (String × M), nm ∉ ms.map Prod.fst →
      setStateByName api nm s ms = ms
  | [], _ => rfl
  | (d, m) :: rest, h => by
      have hd : d ≠ nm := by
        intro hdn
        exact h (by simp [hdn])
      have hrest : nm ∉ rest.map Prod.fst := by
        intro hmem
        exact h (by simp [hmem])
      simp [setStateByName, hd, setStateByName_skip api nm s rest hrest]

theorem setStateByName_fixed {M S : Type} (api : ModelAPI M S) (nm : String)
    (s : S) :
    ∀ ms : List (String × M), (∀ m, (nm, m) ∈ ms → api.setState s m = m) →
      setStateByName api nm s ms = ms
  | [], _ => rfl
  | (d, m) :: rest, h => by
      by_cases hd : d = nm
      · have : api.setState s m = m := h m (by simp [hd])
        simp [setStateByName, hd, this]
      · simp [setStateByName, hd,
          setStateByName_fixed api nm s rest
            (fun m' hm' => h m' (List.mem_cons_of_mem _ hm'))]

theorem nodup_keys_value_eq {M : Type} (nm : String) :
    ∀ l : List (String × M), (l.map Prod.fst).Nodup →
      ∀ m m', (nm, m) ∈ l → (nm, m') ∈ l → m = m'
  | [], _, m, m', hm, _ => by simp at hm
  | (d, x) :: rest, hnd, m, m', hm, hm' => by
      simp only [List.map_cons, List.nodup_cons] at hnd
      rcases List.mem_cons.mp hm with h1 | h1
      · rcases List.mem_cons.mp hm' with h2 | h2
        · rw [Prod.mk.injEq] at h1 h2
          rw [h1.2, h2.2]
        · exfalso
          apply hnd.1
          rw [Prod.mk.injEq] at h1
          exact h1.1 ▸ List.mem_map_of_mem Prod.fst h2
      · rcases List.mem_cons.mp hm' with h2 | h2
        · exfalso
          apply hnd.1
          rw [Prod.mk.injEq] at h2
          exact h2.1 ▸ List.mem_map_of_mem Prod.fst h1
        · exact nodup_keys_value_eq nm rest hnd.2 m m' h1 h2

theorem foldl_setState_fixed {M S : Type} (api : ModelAPI M S)
    (ms : List (String × M)) :
    ∀ es : List (String × String × S),
      (∀ e ∈ es, setStateByName api e.1 e.2.2 ms = ms) →
      es.foldl (fun acc e => setStateByName api e.1 e.2.2 acc) ms = ms
  | [], _ => rfl
  | e :: rest, h => by
      simp only [List.foldl_cons, h e (List.mem_cons_self _ _)]
      exact foldl_setState_fixed api ms rest
        (fun e' he' => h e' (List.mem_cons_of_mem _ he'))

/-- C6 (amended): an immediate `load_snapshot(save_snapshot())` — with no
state changes in between — restores the runtime exactly (every model's
`get_state()` included), and snapshot names absent from the runtime are
skipped without error.  With arbitrary changes between save and load the
original bit-for-bit claim fails, because each model's `set_state`
restores only part of `get_state` (`interrupt_enabled`/`total_interrupts`
for the controller; the three counters for the bus; `access_count` for
memory) — see the counterexample. -/
theorem snapshot_roundtrip_immediate (ρ : ℕ → ℚ) (rt : Runtime Model)
    (hnd : (rt.models.map Prod.fst).Nodup) :
    loadSnapshot (vmAPI ρ) (saveSnapshot (vmAPI ρ) rt) rt = (true, rt) ∧
    (∀ (nm : String) (s : ObsState) (ms : List (String × Model)),
      nm ∉ ms.map Prod.fst → setStateByName (vmAPI ρ) nm s ms = ms) := by
  constructor
  · unfold loadSnapshot saveSnapshot
    have hfold :
        (rt.models.map (fun p =>
            (p.1, (vmAPI ρ).typeName p.2, (vmAPI ρ).getState p.2))).foldl
          (fun ms e => setStateByName (vmAPI ρ) e.1 e.2.2 ms) rt.models =
          rt.models := by
      apply foldl_setState_fixed
      intro e he
      rcases List.mem_map.mp he with ⟨p, hp, hpe⟩
      rw [← hpe]
      apply setStateByName_fixed
      intro m' hm'
      have : m' = p.2 := by
        have := nodup_keys_value_eq p.1 rt.models hnd m' p.2 hm'
          (by rcases p with ⟨n, m⟩; exact hp)
        exact this
      rw [this]
      exact modelSetState_getState p.2
    simp only [hfold]
  · intro nm s ms h
    exact setStateByName_skip (vmAPI ρ) nm s ms h

/-- The controller of `intcPendFx` before the interrupt was raised. -/
def intcNoPendFx : IntcState := { intcPendFx with pendingInterrupts := [] }

def rtC6Fx : Runtime Model :=
  rtWith RuntimeState.running [("ic", Model.intc intcNoPendFx)]

def rtC6midFx : Runtime Model :=
  rtWith RuntimeState.running [("ic", Model.intc intcPendFx)]

/-- C6 counterexample: save a snapshot of a runtime whose controller has an
empty pending queue, raise an interrupt (state change between save and
load), then load the snapshot: `InterruptController.set_state`
(`interrupt.py` lines 134–139) restores only `interrupt_enabled` and
`total_interrupts`, so the restored `get_state()` still shows
`pending_count = 1` instead of the snapshot-time 0 — not bit-for-bit. -/
theorem snapshot_roundtrip_not_bitforbit :
    ((loadSnapshot (vmAPI rhoHalf) (saveSnapshot (vmAPI rhoHalf) rtC6Fx)
          rtC6midFx).2.models.map (fun p => modelGetState p.2)) ≠
      rtC6Fx.models.map (fun p => modelGetState p.2) := by
  decide

/-- C6 witness: the immediate round trip on a concrete two-model runtime. -/
theorem snapshot_roundtrip_immediate_witness :
    loadSnapshot (vmAPI rhoHalf) (saveSnapshot (vmAPI rhoHalf) rtC6midFx)
        rtC6midFx = (true, rtC6midFx) :=
  (snapshot_roundtrip_immediate rhoHalf rtC6midFx (by decide)).1

/-! ### C7 — periodic generator scenario -/

/-- The initialized 4-vector controller driven in the C7 scenario. -/
def intcC7Fx : IntcState := (intcInit (intcNew 4)).2

/-- Generator bound to vector 0, `period_ms = 100`, fire limit 5. -/
def genC7Fx : GenState :=
  { vector := 0, periodMs := 100, maxCount := some 5, currentCount := 0,
    elapsedTime := 0, enabled := true }

/-- `k` successive `update(0.1)` calls on the generator, accumulating the
raise-call log. -/
def genStepsC7 : ℕ → Option (GenState × IntcState × List IEvent)
  | 0 => some (genC7Fx, intcC7Fx, [])
  | Nat.succ k =>
      (genStepsC7 k).bind (fun r =>
        (genUpdate (1/10) r.1 r.2.1).map (fun r2 => (r2.1, r2.2.1, r.2.2 ++ r2.2.2)))

set_option maxHeartbeats 3200000

/-- C7: with `period_ms = 100` and fire limit 5, ten `update(0.1)` calls
produce exactly 5 `raise_interrupt` calls — one per call for the first
five calls — and calls 6–10 are no-ops (generator and controller states
identical to after call 5).  The while loop fires once per full period in
a single call (`Δt = 0.35 s` fires 3 times, 50 ms remainder kept) and
stops the instant the limit is reached mid-loop (`Δt = 0.5 s` with limit 2
fires twice, the 300 ms remainder kept). -/
theorem periodic_generator_exact_count :
    ((genStepsC7 10).map (fun r => (r.1.currentCount, r.2.2)) =
      some (5, List.replicate 5 (IEvent.raiseCalled 0))) ∧
    ((genStepsC7 1).map (fun r => r.2.2.length) = some 1) ∧
    ((genStepsC7 2).map (fun r => r.2.2.length) = some 2) ∧
    ((genStepsC7 3).map (fun r => r.2.2.length) = some 3) ∧
    ((genStepsC7 4).map (fun r => r.2.2.length) = some 4) ∧
    ((genStepsC7 5).map (fun r => r.2.2.length) = some 5) ∧
    ((genStepsC7 10).map (fun r => (r.1, r.2.1)) =
      (genStepsC7 5).map (fun r => (r.1, r.2.1))) ∧
    ((genUpdate (35/100) genC7Fx intcC7Fx).map
        (fun r => (r.1.currentCount, r.1.elapsedTime, r.2.2)) =
      some (3, 50, List.replicate 3 (IEvent.raiseCalled 0))) ∧
    ((genUpdate (1/2) { genC7Fx with maxCount := some 2 } intcC7Fx).map
        (fun r => (r.1.currentCount, r.1.elapsedTime, r.2.2)) =
      some (2, 300, List.replicate 2 (IEvent.raiseCalled 0))) := by
  norm_num [genStepsC7, genUpdate, genLoop, genFuel, limitReached, raiseInterrupt,
    genC7Fx, intcC7Fx, intcInit, intcNew, lookupVec, List.range_succ,
    GenState.mk.injEq, List.replicate]

/-! ### C1 — priority dispatch -/

theorem keyedPending_eq (table : List (ℤ × Interrupt)) :
    ∀ l : List ℤ, (∀ v ∈ l, (lookupVec v table).isSome) →
      keyedPending table l =
        some (l.map (fun v =>
          (v, ((lookupVec v table).map Interrupt.priority).getD 0)))
  | [], _ => rfl
  | v :: vs, h => by
      obtain ⟨i, hi⟩ := Option.isSome_iff_exists.mp (h v (List.mem_cons_self _ _))
      have ih := keyedPending_eq table vs (fun w hw => h w (List.mem_cons_of_mem _ hw))
      simp [keyedPending, hi, ih]

/-- `_handle_interrupt` on any state whose table contains the vector. -/
theorem handleInterrupt_eq (v : ℤ) (s2 : IntcState) (i : Interrupt)
    (hi : lookupVec v s2.interrupts = some i) :
    handleInterrupt v s2 =
      some
        ({ s2 with
            activeInterrupt := none
            totalInterrupts := s2.totalInterrupts + 1
            interrupts := updateVec v (fun j => { j with count := j.count + 1 })
              s2.interrupts },
         IEvent.dispatched v ::
           (match i.handler with
            | some h => [IEvent.handlerInvoked v h]
            | none => [])) := by
  unfold handleInterrupt
  rw [hi]

/-- C1: an enabled controller with a non-empty pending queue and no active
interrupt dispatches, in one `update` call, exactly one vector — one of
maximal priority among the pending vectors, whatever order they were
raised in — removing it from pending, invoking its handler if present,
bumping its trigger count and the total count, leaving `active_interrupt`
clear, and the result does not depend on `delta_time`. -/
theorem intc_update_dispatches_highest (dt : ℚ) (s : IntcState)
    (hen : s.interruptEnabled = true)
    (hpend : s.pendingInterrupts ≠ [])
    (hact : s.activeInterrupt = none)
    (htab : ∀ v ∈ s.pendingInterrupts, (lookupVec v s.interrupts).isSome) :
    ∃ v i s' evs, intcUpdate dt s = some (s', evs) ∧
      v ∈ s.pendingInterrupts ∧
      lookupVec v s.interrupts = some i ∧
      (∀ w j, w ∈ s.pendingInterrupts → lookupVec w s.interrupts = some j →
        j.priority ≤ i.priority) ∧
      s.pendingInterrupts.Perm (v :: s'.pendingInterrupts) ∧
      s'.totalInterrupts = s.totalInterrupts + 1 ∧
      lookupVec v s'.interrupts = some { i with count := i.count + 1 } ∧
      (∀ w, w ≠ v → lookupVec w s'.interrupts = lookupVec w s.interrupts) ∧
      s'.activeInterrupt = none ∧
      s'.interruptEnabled = s.interruptEnabled ∧
      evs = IEvent.dispatched v ::
        (match i.handler with
         | some h => [IEvent.handlerInvoked v h]
         | none => []) ∧
      (∀ dt', intcUpdate dt' s = intcUpdate dt s) := by
  have hkey := keyedPending_eq s.interrupts s.pendingInterrupts htab
  set pairs := s.pendingInterrupts.map (fun v =>
    (v, ((lookupVec v s.interrupts).map Interrupt.priority).getD 0)) with hpairs
  have hperm : (List.insertionSort prioGE pairs).Perm pairs :=
    List.perm_insertionSort prioGE pairs
  have hsorted : List.Sorted prioGE (List.insertionSort prioGE pairs) :=
    List.sorted_insertionSort prioGE pairs
  obtain ⟨⟨v, p⟩, rest, hsplit⟩ :
      ∃ hd rest, List.insertionSort prioGE pairs = hd :: rest := by
    cases hl : List.insertionSort prioGE pairs with
    | nil =>
        exfalso
        apply hpend
        have h0 : pairs.length = 0 := by rw [← hperm.length_eq, hl]; rfl
        have h0length : s.pendingInterrupts.length = 0 := by
          rw [hpairs] at h0
          simpa using h0
        exact List.length_eq_zero.mp h0length
    | cons hd rest => exact ⟨hd, rest, rfl⟩
  have hvp_pairs : (v, p) ∈ pairs := hperm.subset (hsplit ▸ List.mem_cons_self _ _)
  obtain ⟨w0, hw0mem, hw0eq⟩ := List.mem_map.mp hvp_pairs
  have hw0v : w0 = v := ((Prod.mk.injEq _ _ _ _).mp hw0eq).1
  have hv : v ∈ s.pendingInterrupts := hw0v ▸ hw0mem
  obtain ⟨i, hi⟩ := Option.isSome_iff_exists.mp (htab v hv)
  have hpi : i.priority = p := by
    have h2 := ((Prod.mk.injEq _ _ _ _).mp hw0eq).2
    rw [hw0v, hi] at h2
    simpa using h2
  have hupdate : intcUpdate dt s =
      handleInterrupt v { s with pendingInterrupts := rest.map Prod.fst } := by
    unfold intcUpdate
    rw [if_neg (by simp [hen]), if_pos ⟨hpend, hact⟩, hkey]
    show (match List.insertionSort prioGE pairs with
          | [] => some (s, [])
          | (v, _) :: rest =>
              handleInterrupt v { s with pendingInterrupts := rest.map Prod.fst }) = _
    rw [hsplit]
  have hhandle := handleInterrupt_eq v
    { s with pendingInterrupts := rest.map Prod.fst } i hi
  refine ⟨v, i, _, _, hupdate.trans hhandle, hv, hi, ?_, ?_, rfl, ?_, ?_, rfl, rfl,
    rfl, fun dt' => rfl⟩
  · intro w j hw hj
    have hwp : (w, j.priority) ∈ pairs := by
      rw [hpairs]
      refine List.mem_map.mpr ⟨w, hw, ?_⟩
      simp [hj]
    have hmem2 : (w, j.priority) ∈ List.insertionSort prioGE pairs :=
      hperm.mem_iff.mpr hwp
    rw [hsplit] at hmem2
    rcases List.mem_cons.mp hmem2 with hh | ht
    · have hjp : j.priority = p := ((Prod.mk.injEq _ _ _ _).mp hh).2
      rw [hjp, ← hpi]
    · have hs2 := hsorted
      rw [hsplit] at hs2
      have hle := (List.sorted_cons.mp hs2).1 _ ht
      calc j.priority ≤ p := hle
        _ = i.priority := hpi.symm
  · show s.pendingInterrupts.Perm (v :: rest.map Prod.fst)
    have hfst : ∀ l : List ℤ,
        (l.map (fun v =>
          (v, ((lookupVec v s.interrupts).map Interrupt.priority).getD 0))).map
            Prod.fst = l := by
      intro l
      induction l with
      | nil => rfl
      | cons a l ih => simp [ih]
    have h1 : pairs.map Prod.fst = s.pendingInterrupts := by
      rw [hpairs]
      exact hfst _
    have h3 := hperm.map Prod.fst
    rw [hsplit, h1] at h3
    have h4 : (v :: rest.map Prod.fst).Perm s.pendingInterrupts := by
      simpa using h3
    exact h4.symm
  · show lookupVec v (updateVec v (fun j => { j with count := j.count + 1 })
        s.interrupts) = some { i with count := i.count + 1 }
    rw [lookupVec_updateVec_self, hi]
    rfl
  · intro w hw
    show lookupVec w (updateVec v (fun j => { j with count := j.count + 1 })
        s.interrupts) = lookupVec w s.interrupts
    exact lookupVec_updateVec_ne v w _ hw s.interrupts

/-- The spec's priority-dispatch example: vectors 0, 1, 2 with priorities
3, 7, 1, raised in that order. -/
def sC1Fx : IntcState :=
  { numVectors := 3
    interrupts :=
      [(0, { vector := 0, interruptType := InterruptType.hardware, priority := 3,
             handler := none, enabled := true, count := 0 }),
       (1, { vector := 1, interruptType := InterruptType.hardware, priority := 7,
             handler := none, enabled := true, count := 0 }),
       (2, { vector := 2, interruptType := InterruptType.hardware, priority := 1,
             handler := none, enabled := true, count := 0 })]
    pendingInterrupts := [0, 1, 2]
    activeInterrupt := none
    interruptEnabled := true
    totalInterrupts := 0
    initialized := true }

/-- C1 witness: on the `[3, 7, 1]` example the theorem applies, and the
dispatched vector is the priority-7 one (vector 1), leaving pending
`[0, 2]`. -/
theorem intc_update_dispatches_highest_witness :
    (∃ v i s' evs, intcUpdate 0 sC1Fx = some (s', evs) ∧
        v ∈ sC1Fx.pendingInterrupts ∧ lookupVec v sC1Fx.interrupts = some i ∧
        (∀ w j, w ∈ sC1Fx.pendingInterrupts → lookupVec w sC1Fx.interrupts = some j →
          j.priority ≤ i.priority) ∧
        sC1Fx.pendingInterrupts.Perm (v :: s'.pendingInterrupts) ∧
        s'.totalInterrupts = sC1Fx.totalInterrupts + 1 ∧
        lookupVec v s'.interrupts = some { i with count := i.count + 1 } ∧
        (∀ w, w ≠ v → lookupVec w s'.interrupts = lookupVec w sC1Fx.interrupts) ∧
        s'.activeInterrupt = none ∧
        s'.interruptEnabled = sC1Fx.interruptEnabled ∧
        evs = IEvent.dispatched v ::
          (match i.handler with
           | some h => [IEvent.handlerInvoked v h]
           | none => []) ∧
        (∀ dt', intcUpdate dt' sC1Fx = intcUpdate 0 sC1Fx)) ∧
    (intcUpdate 0 sC1Fx).map
        (fun r => (r.1.totalInterrupts, r.1.pendingInterrupts,
          r.1.activeInterrupt, r.2)) =
      some (1, [0, 2], none, [IEvent.dispatched 1]) :=
  ⟨intc_update_dispatches_highest 0 sC1Fx rfl (by decide) rfl (by decide), by decide⟩
